import Mathlib

/-!
Shallow embedding of the trie prefetcher in
`crates/trie/prefetch/src/prefetch.rs` (struct `TriePrefetch`).

Modelling conventions:
* Hashed 32-byte identifiers (`B256`: account addresses and storage-slot
  keys) are natural numbers; account and slot values are opaque naturals.
* Rust `HashMap`s are association lists (`List (key × value)`); the code
  only inserts, removes and tests membership, so list order is inessential.
* The generic database parameter `DB` together with the cursor machinery
  is a `Provider` record describing the outcomes the storage layer would
  deliver: snapshot acquisition (`provider_ro`), the two cursor openings,
  the sequence of trie elements the account-node iterator yields, the
  outcome of the iterator after those elements, and the outcome of a
  single-account `StorageRoot::prefetch` call.
* Fallible Rust operations return `Except`; error payloads are numeric
  codes.
-/

/-- Hashed 32-byte identifier (account address or storage slot key),
modelled as a natural number. -/
abbrev B256 := Nat

/-- Account value; opaque to the prefetcher. -/
abbrev AccountVal := Nat

/-- Storage slot value; opaque to the prefetcher. -/
abbrev SlotVal := Nat

/-- `HashedPostState`: hashed account changes and hashed storage changes
of one state-delta batch (maps modelled as association lists). -/
structure HashedPostState where
  accounts : List (B256 × AccountVal)
  storages : List (B256 × List (B256 × SlotVal))
deriving DecidableEq

/-- The empty `HashedPostState` (Rust `HashedPostState::default()`). -/
def HashedPostState.empty : HashedPostState :=
  { accounts := [], storages := [] }

/-- `EvmState`, the raw batch received on the channel.
`HashedPostState::from_state` (external crate `reth_trie`) hashes the raw
addresses and slot keys; the embedding works directly with hashed
identifiers, so the conversion is the identity. -/
abbrev EvmState := HashedPostState

/-- `HashedPostState::from_state` — identity on the already-hashed
representation used by this embedding. -/
def HashedPostState.from_state (s : EvmState) : HashedPostState := s

/-- The dedup-cache part of struct `TriePrefetch`:
`cached_accounts : HashMap<B256, bool>` (a set of seen addresses) and
`cached_storages : HashMap<B256, HashMap<B256, bool>>` (per address, the
set of seen slots).  The `global_stats` handle is modelled separately
(`GlobalStats`, `mergeStats`). -/
structure TriePrefetch where
  cached_accounts : List B256
  cached_storages : List (B256 × List B256)
deriving DecidableEq

/-- `TriePrefetch::new()`. -/
def TriePrefetch.new : TriePrefetch :=
  { cached_accounts := [], cached_storages := [] }

/-- The three shared counters of struct `GlobalStats`. -/
structure GlobalStats where
  branch_prefetched : Nat
  leaves_prefetched : Nat
  missed_leaves_prefetched : Nat
deriving DecidableEq

/-- `GlobalStats::default()`. -/
def GlobalStats.empty : GlobalStats :=
  { branch_prefetched := 0, leaves_prefetched := 0, missed_leaves_prefetched := 0 }

/-- Keys of an association list. -/
def keysOf {α : Type} (l : List (B256 × α)) : List B256 :=
  l.map Prod.fst

/-- One iteration of the (only active) account loop of
`deduplicate_and_update_cached`: an address already present in
`cached_accounts` is skipped; a fresh address is marked seen and its
entry copied into the new state.  (The storage-deduplication loop of the
source, lines 119-148, is commented out and therefore absent here.) -/
def dedupStep (acc : TriePrefetch × HashedPostState) (p : B256 × AccountVal) :
    TriePrefetch × HashedPostState :=
  if p.1 ∈ acc.1.cached_accounts then acc
  else
    ({ acc.1 with cached_accounts := p.1 :: acc.1.cached_accounts },
     { acc.2 with accounts := acc.2.accounts ++ [p] })

/-- `TriePrefetch::deduplicate_and_update_cached` (source lines 103-151):
converts the incoming state, filters its accounts against
`cached_accounts` while marking them seen, and returns the updated cache
together with the filtered state.  The storage loop is commented out in
the source, so `storages` of the output stays empty and `cached_storages`
is untouched. -/
def deduplicate_and_update_cached (tp : TriePrefetch) (state : EvmState) :
    TriePrefetch × HashedPostState :=
  let hashed_state := HashedPostState.from_state state
  hashed_state.accounts.foldl dedupStep (tp, HashedPostState.empty)

/-- Has the pair (address, slot) been recorded in the dedup cache? -/
def slotCached (tp : TriePrefetch) (addr slot : B256) : Bool :=
  match List.lookup addr tp.cached_storages with
  | some slots => slots.contains slot
  | none => false

/-- Does the (filtered) state carry a storage entry for (address, slot)? -/
def slotInDelta (hs : HashedPostState) (addr slot : B256) : Bool :=
  match List.lookup addr hs.storages with
  | some slots => (keysOf slots).contains slot
  | none => false

/-- A trie-path prefix set; contents are opaque to the prefetcher (the
fan-out closure never reads its prefix set in the active code). -/
abbrev PrefixSet := List B256

/-- `TriePrefixSetsMut`/frozen prefix sets: the account-trie prefix set
and the per-account storage prefix sets. -/
structure TriePrefixSets where
  account_prefix_set : PrefixSet
  storage_prefix_sets : List (B256 × PrefixSet)
deriving DecidableEq

/-- Modelled from the spec: `HashedPostState::construct_prefix_sets`
lives in the external crate `reth_trie` (not under src/).  Following
spec §4.2: for every account present directly or via a storage change,
its account-trie path prefix; for every (account, slot) pair, the path
prefix in that account's storage trie. -/
def constructPrefixSets (hs : HashedPostState) : TriePrefixSets :=
  { account_prefix_set := keysOf hs.accounts ++ keysOf hs.storages,
    storage_prefix_sets := hs.storages.map (fun p => (p.1, keysOf p.2)) }

/-- Modelled from the spec: `StorageRootTargets::new` lives in the
external crate `reth_trie_parallel` (not under src/).  Following spec
§3: the accounts that have a non-empty per-account prefix set, each
paired with that prefix set.  (The account-key argument matches the
call shape in `prefetch_once`; the spec's definition does not draw
targets from it.) -/
def storageRootTargets (accountKeys : List B256)
    (sps : List (B256 × PrefixSet)) : List (B256 × PrefixSet) :=
  let _ := accountKeys
  sps.filter (fun p => !p.2.isEmpty)

/-- `TrieElement`, one step yielded by the account-node iterator.  The
`Branch` payload is unused by `prefetch_once` (matched as `Branch(_)`). -/
inductive TrieElement
  | branch
  | leaf (hashed_address : B256) (value : AccountVal)
deriving DecidableEq

/-- Observable storage-layer actions of one `prefetch_once` execution:
acquiring a read-only snapshot (`consistent_view.provider_ro()`), and
one fallback `StorageRoot::prefetch` call for an address (recording
whether the underlying call succeeded). -/
inductive Event
  | snapshot
  | fallback (hashed_address : B256) (succeeded : Bool)
deriving DecidableEq

/-- `TriePrefetchError` (source lines 272-283), with numeric payloads. -/
inductive TriePrefetchError
  | storageRoot (code : Nat)
  | parallelStateRoot (code : Nat)
  | provider (code : Nat)
deriving DecidableEq

/-- The behaviour of the storage/database layer as seen by one
`prefetch_once` call: outcome of snapshot acquisition, of opening the
two cursors, the trie elements the account-node iterator yields, the
iterator's outcome after those elements (`ok` = exhausted, `error` = a
cursor failure during `try_next`), and the outcome of a single-account
`StorageRoot::prefetch`. -/
structure Provider where
  provider_ro : Except Nat Unit
  account_trie_cursor : Except Nat Unit
  hashed_account_cursor : Except Nat Unit
  nodes : List TrieElement
  walkEnd : Except Nat Unit
  storagePrefetch : B256 → Except Nat Nat

/-- State threaded through the account-trie walk loop of
`prefetch_once`: the remaining `storage_roots` map, the `TrieTracker`
counters (`inc_branch` / `inc_leaf`), the local `leaves_missed`
counter, and the log of storage-layer events so far. -/
structure WalkState where
  storage_roots : List (B256 × Nat)
  branches : Nat
  leaves : Nat
  leavesMissed : Nat
  events : List Event
deriving DecidableEq

/-- `HashMap::remove`: the value stored under the key, if any, together
with the map with that entry removed. -/
def lookupRemove (m : List (B256 × Nat)) (k : B256) :
    Option (Nat × List (B256 × Nat)) :=
  match m with
  | [] => none
  | (k', v) :: rest =>
    if k' = k then some (v, rest)
    else
      match lookupRemove rest k with
      | some (v', rest') => some (v', (k', v) :: rest')
      | none => none

/-- The body of the walk loop of `prefetch_once` (source lines 216-246).
A branch bumps the branch counter.  A leaf first reconciles against
`storage_roots`: on a hit the entry is removed and its value is the
(discarded) result; on a miss `leaves_missed` is bumped and a fallback
`StorageRoot::prefetch` runs with the clones of the cursor factories
already open for the walk — its error is swallowed
(`.prefetch().ok().unwrap_or_default()`) and its value discarded.
Either way the leaf counter is bumped after the match. -/
def walkStep (p : Provider) (s : WalkState) (n : TrieElement) : WalkState :=
  match n with
  | TrieElement.branch => { s with branches := s.branches + 1 }
  | TrieElement.leaf hashed_address _ =>
    match lookupRemove s.storage_roots hashed_address with
    | some r =>
      { s with storage_roots := r.2, leaves := s.leaves + 1 }
    | none =>
      { s with
        leavesMissed := s.leavesMissed + 1,
        leaves := s.leaves + 1,
        events := s.events ++
          [Event.fallback hashed_address (p.storagePrefetch hashed_address).isOk] }

/-- The parallel fan-out of `prefetch_once` (source lines 174-195): the
per-account closure's entire body — snapshot acquisition, cursor
construction and the `StorageRoot` prefetch — is commented out in the
source; the active closure returns `Ok((hashed_address, 1))`, so the
collection never touches the provider and never fails.  (`consistent_view`
is in scope for the closure but unused by the active code.) -/
def fanOut (p : Provider) (targets : List (B256 × PrefixSet)) :
    Except TriePrefetchError (List (B256 × Nat)) :=
  let _ := p
  Except.ok (targets.map (fun t => (t.1, 1)))

/-- `TriePrefetch::prefetch_once` (source lines 154-268), returning the
final walk state (counters, consumed `storage_roots`, event log) on
success.  The `cancelled` argument carries the state of the coordinator's
cancellation signal during this execution; the source threads no such
signal into `prefetch_once`, so — faithfully — the body never consults
it. -/
def prefetchOnce (p : Provider) (cancelled : Bool)
    (hashed_state : HashedPostState) : Except TriePrefetchError WalkState :=
  let _ := cancelled
  let prefix_sets := constructPrefixSets hashed_state
  let targets :=
    storageRootTargets (keysOf hashed_state.accounts) prefix_sets.storage_prefix_sets
  match fanOut p targets with
  | Except.error e => Except.error e
  | Except.ok storage_roots =>
    match p.provider_ro with
    | Except.error e => Except.error (TriePrefetchError.provider e)
    | Except.ok _ =>
      match p.account_trie_cursor with
      | Except.error e => Except.error (TriePrefetchError.provider e)
      | Except.ok _ =>
        match p.hashed_account_cursor with
        | Except.error e => Except.error (TriePrefetchError.provider e)
        | Except.ok _ =>
          let s0 : WalkState :=
            { storage_roots := storage_roots, branches := 0, leaves := 0,
              leavesMissed := 0, events := [Event.snapshot] }
          let s1 := p.nodes.foldl (walkStep p) s0
          match p.walkEnd with
          | Except.error e => Except.error (TriePrefetchError.provider e)
          | Except.ok _ => Except.ok s1

/-- The stats-merge step of `prefetch_once` (source lines 253-256): the
three `+=` updates performed under the `global_stats` lock. -/
def mergeStats (g : GlobalStats) (w : WalkState) : GlobalStats :=
  { branch_prefetched := g.branch_prefetched + w.branches,
    leaves_prefetched := g.leaves_prefetched + (w.leaves - w.leavesMissed),
    missed_leaves_prefetched := g.missed_leaves_prefetched + w.leavesMissed }

/-- One spawned worker as observed from `GlobalStats` (source lines
85-89 combined with 253-256): on success the walk's counters are merged
under the lock; on error the task only logs (`debug!`) and the stats are
untouched. -/
def execJob (p : Provider) (g : GlobalStats) (job : HashedPostState) : GlobalStats :=
  match prefetchOnce p false job with
  | Except.ok w => mergeStats g w
  | Except.error _ => g

/-- The two kinds of events the `tokio::select!` of `run` reacts to: a
state batch arriving on `prefetch_rx`, or the one-shot `interrupt_rx`
firing. -/
inductive RunEvent
  | batch (state : EvmState)
  | interrupt

/-- State of the `run` dispatch loop: the coordinator's dedup cache, the
inputs of the workers spawned so far (each the filtered state handed to
`prefetch_once`), and whether the loop has returned. -/
structure RunState where
  tp : TriePrefetch
  spawned : List HashedPostState
  terminated : Bool

/-- One iteration of the `run` loop (source lines 76-99).  A batch is
filtered synchronously through `deduplicate_and_update_cached` — which
updates the cache — and only then is a worker for the filtered output
spawned.  An interrupt aborts all outstanding workers
(`join_set.abort_all()`) and returns; a terminated loop processes
nothing further. -/
def runStep (s : RunState) (e : RunEvent) : RunState :=
  if s.terminated then s
  else
    match e with
    | RunEvent.batch st =>
      let r := deduplicate_and_update_cached s.tp st
      { s with tp := r.1, spawned := s.spawned ++ [r.2] }
    | RunEvent.interrupt => { s with terminated := true }

/-- The `run` loop over a sequence of arriving events. -/
def runLoop (s : RunState) (events : List RunEvent) : RunState :=
  events.foldl runStep s

/-- Initial state of `run`: fresh caches, no workers, loop live. -/
def initRunState : RunState :=
  { tp := TriePrefetch.new, spawned := [], terminated := false }

/-- How many of the spawned workers' inputs mention address `a`. -/
def countJobsWith (a : B256) (jobs : List HashedPostState) : Nat :=
  jobs.countP (fun j => decide (a ∈ keysOf j.accounts))

/-- Addresses of the fallback prefetch calls in an event log, in order. -/
def fallbackAddrs (evs : List Event) : List B256 :=
  evs.filterMap (fun e =>
    match e with
    | Event.fallback a _ => some a
    | _ => none)
theorem keysOf_cons {α : Type} (p : B256 × α) (l : List (B256 × α)) :
    keysOf (p :: l) = p.1 :: keysOf l := rfl

theorem keysOf_append {α : Type} (x y : List (B256 × α)) :
    keysOf (x ++ y) = keysOf x ++ keysOf y := List.map_append _ _ _

theorem dedup_foldl_storages (l : List (B256 × AccountVal)) :
    ∀ acc : TriePrefetch × HashedPostState,
      (l.foldl dedupStep acc).2.storages = acc.2.storages ∧
      (l.foldl dedupStep acc).1.cached_storages = acc.1.cached_storages := by
  induction l with
  | nil => intro acc; exact ⟨rfl, rfl⟩
  | cons p l ih =>
    intro acc
    rw [List.foldl_cons]
    have hs : (dedupStep acc p).2.storages = acc.2.storages ∧
        (dedupStep acc p).1.cached_storages = acc.1.cached_storages := by
      unfold dedupStep; split <;> exact ⟨rfl, rfl⟩
    exact ⟨(ih (dedupStep acc p)).1.trans hs.1, (ih (dedupStep acc p)).2.trans hs.2⟩

theorem dedup_foldl_cached (l : List (B256 × AccountVal)) :
    ∀ (acc : TriePrefetch × HashedPostState) (a : B256),
      a ∈ (l.foldl dedupStep acc).1.cached_accounts ↔
        a ∈ acc.1.cached_accounts ∨ a ∈ keysOf l := by
  induction l with
  | nil => intro acc a; simp [keysOf]
  | cons p l ih =>
    intro acc a
    rw [List.foldl_cons, ih (dedupStep acc p) a]
    by_cases hp : p.1 ∈ acc.1.cached_accounts
    · rw [show dedupStep acc p = acc from by simp [dedupStep, hp], keysOf_cons]
      simp only [List.mem_cons]
      constructor
      · rintro (h | h)
        exacts [Or.inl h, Or.inr (Or.inr h)]
      · rintro (h | rfl | h)
        exacts [Or.inl h, Or.inl hp, Or.inr h]
    · have h1 : (dedupStep acc p).1.cached_accounts = p.1 :: acc.1.cached_accounts := by
        simp [dedupStep, hp]
      rw [h1, keysOf_cons]
      simp only [List.mem_cons]
      tauto

theorem dedup_foldl_out (l : List (B256 × AccountVal)) :
    ∀ (acc : TriePrefetch × HashedPostState) (a : B256),
      a ∈ keysOf (l.foldl dedupStep acc).2.accounts ↔
        a ∈ keysOf acc.2.accounts ∨ (a ∈ keysOf l ∧ a ∉ acc.1.cached_accounts) := by
  induction l with
  | nil => intro acc a; simp [keysOf]
  | cons p l ih =>
    intro acc a
    rw [List.foldl_cons, ih (dedupStep acc p) a]
    by_cases hp : p.1 ∈ acc.1.cached_accounts
    · rw [show dedupStep acc p = acc from by simp [dedupStep, hp], keysOf_cons]
      simp only [List.mem_cons]
      by_cases ha : a = p.1
      · subst ha; tauto
      · simp [ha]
    · have h1 : (dedupStep acc p).1.cached_accounts = p.1 :: acc.1.cached_accounts := by
        simp [dedupStep, hp]
      have h2 : (dedupStep acc p).2.accounts = acc.2.accounts ++ [p] := by
        simp [dedupStep, hp]
      rw [h1, h2, keysOf_append, keysOf_cons]
      simp only [List.mem_append, List.mem_cons, keysOf, List.map, List.mem_singleton,
        List.not_mem_nil, or_false]
      by_cases ha : a = p.1
      · subst ha; simp [hp]
      · simp [ha]

theorem dedup_cached_iff (tp : TriePrefetch) (st : EvmState) (a : B256) :
    a ∈ (deduplicate_and_update_cached tp st).1.cached_accounts ↔
      a ∈ tp.cached_accounts ∨ a ∈ keysOf st.accounts := by
  unfold deduplicate_and_update_cached HashedPostState.from_state
  exact dedup_foldl_cached st.accounts (tp, HashedPostState.empty) a

theorem dedup_out_iff (tp : TriePrefetch) (st : EvmState) (a : B256) :
    a ∈ keysOf (deduplicate_and_update_cached tp st).2.accounts ↔
      a ∈ keysOf st.accounts ∧ a ∉ tp.cached_accounts := by
  unfold deduplicate_and_update_cached HashedPostState.from_state
  rw [dedup_foldl_out st.accounts (tp, HashedPostState.empty) a]
  simp [HashedPostState.empty, keysOf]

theorem dedup_storages_empty (tp : TriePrefetch) (st : EvmState) :
    (deduplicate_and_update_cached tp st).2.storages = [] ∧
    (deduplicate_and_update_cached tp st).1.cached_storages = tp.cached_storages := by
  unfold deduplicate_and_update_cached HashedPostState.from_state
  exact dedup_foldl_storages st.accounts (tp, HashedPostState.empty)

def tpC1 : TriePrefetch := TriePrefetch.new

def stC1 : EvmState := { accounts := [], storages := [(3, [(5, 11)])] }

/-- Claim C1, counterexample: with an empty dedup cache, the incoming
delta {3 ↦ {5 ↦ 11}} carries the storage-slot pair (3, 5), which was
never previously recorded — yet the filter output contains no entry for
it (the storage-deduplication loop is commented out in the source), so
"included if and only if not previously recorded" fails in the "if"
direction. -/
theorem dedup_storage_slot_claim_cex :
    slotCached tpC1 3 5 = false ∧ slotInDelta stC1 3 5 = true ∧
    slotInDelta (deduplicate_and_update_cached tpC1 stC1).2 3 5 = false := by
  decide

/-- Claim C1, amended: the filter never includes any storage-slot entry
in its output — the output's storage map is always empty, regardless of
the dedup cache — and the storage side of the dedup cache is never
updated. -/
theorem dedup_storage_filter_disabled (tp : TriePrefetch) (st : EvmState)
    (addr slot : B256) :
    (deduplicate_and_update_cached tp st).2.storages = [] ∧
    slotInDelta (deduplicate_and_update_cached tp st).2 addr slot = false ∧
    slotCached (deduplicate_and_update_cached tp st).1 addr slot =
      slotCached tp addr slot := by
  obtain ⟨h1, h2⟩ := dedup_storages_empty tp st
  refine ⟨h1, ?_, ?_⟩
  · unfold slotInDelta
    rw [h1]
    rfl
  · unfold slotCached
    rw [h2]

/-- Claim C3: an account entry is included in the filter output exactly
when its identifier is not yet in the dedup cache (no storage
co-occurrence is required), it is then marked seen, and a second
submission of the same batch yields an output with no entry for it. -/
theorem dedup_account_iff_not_seen (tp : TriePrefetch) (st : EvmState) (a : B256) :
    (a ∈ keysOf (deduplicate_and_update_cached tp st).2.accounts ↔
      a ∈ keysOf st.accounts ∧ a ∉ tp.cached_accounts) ∧
    (a ∈ (deduplicate_and_update_cached tp st).1.cached_accounts ↔
      a ∈ tp.cached_accounts ∨ a ∈ keysOf st.accounts) ∧
    (a ∈ keysOf st.accounts →
      a ∉ keysOf (deduplicate_and_update_cached
        (deduplicate_and_update_cached tp st).1 st).2.accounts) := by
  refine ⟨dedup_out_iff tp st a, dedup_cached_iff tp st a, ?_⟩
  intro ha hmem
  rw [dedup_out_iff] at hmem
  exact hmem.2 ((dedup_cached_iff tp st a).2 (Or.inr ha))

def tpC3 : TriePrefetch := TriePrefetch.new

def stC3 : EvmState := { accounts := [(7, 1)], storages := [] }

/-- Witness for C3 at a concrete input: account 7 is in the first filter
output and absent from the second. -/
theorem dedup_account_iff_witness :
    7 ∈ keysOf (deduplicate_and_update_cached tpC3 stC3).2.accounts ∧
    7 ∉ keysOf (deduplicate_and_update_cached
      (deduplicate_and_update_cached tpC3 stC3).1 stC3).2.accounts := by
  refine ⟨(dedup_account_iff_not_seen tpC3 stC3 7).1.mpr (by decide), ?_⟩
  exact (dedup_account_iff_not_seen tpC3 stC3 7).2.2 (by decide)

/-- Claim C2: at every leaf yielded by the account-trie walk, a hit in
`storage_roots` consumes (removes) that entry and performs no fallback
and no snapshot acquisition, while a miss performs exactly one fallback
storage prefetch for that address through the cursor factories already
open for the walk (no snapshot event) and bumps the missed-leaves
counter by exactly one. -/
theorem walker_leaf_hit_miss (p : Provider) (s : WalkState) (a : B256)
    (v : AccountVal) :
    (∀ r, lookupRemove s.storage_roots a = some r →
      walkStep p s (TrieElement.leaf a v) =
        { s with storage_roots := r.2, leaves := s.leaves + 1 }) ∧
    (lookupRemove s.storage_roots a = none →
      walkStep p s (TrieElement.leaf a v) =
        { s with leavesMissed := s.leavesMissed + 1, leaves := s.leaves + 1,
                 events := s.events ++
                   [Event.fallback a (p.storagePrefetch a).isOk] }) := by
  constructor
  · intro r h
    simp [walkStep, h]
  · intro h
    simp [walkStep, h]

def hitMissProvider : Provider :=
  { provider_ro := Except.ok (), account_trie_cursor := Except.ok (),
    hashed_account_cursor := Except.ok (), nodes := [],
    walkEnd := Except.ok (), storagePrefetch := fun _ => Except.ok 0 }

def wsC2 : WalkState :=
  { storage_roots := [(1, 1)], branches := 0, leaves := 0, leavesMissed := 0,
    events := [] }

/-- Witness for C2 at concrete inputs: a hit on address 1 and a miss on
address 2. -/
theorem walker_leaf_hit_miss_witness :
    walkStep hitMissProvider wsC2 (TrieElement.leaf 1 9) =
      { storage_roots := [], branches := 0, leaves := 1, leavesMissed := 0,
        events := [] } ∧
    walkStep hitMissProvider wsC2 (TrieElement.leaf 2 9) =
      { storage_roots := [(1, 1)], branches := 0, leaves := 1, leavesMissed := 1,
        events := [Event.fallback 2 true] } := by
  constructor
  · exact (walker_leaf_hit_miss hitMissProvider wsC2 1 9).1 (1, []) rfl
  · exact (walker_leaf_hit_miss hitMissProvider wsC2 2 9).2 rfl

def failingProvider : Provider :=
  { provider_ro := Except.error 7, account_trie_cursor := Except.error 7,
    hashed_account_cursor := Except.error 7, nodes := [],
    walkEnd := Except.error 7, storagePrefetch := fun _ => Except.error 7 }

/-- Claim C4, counterexample: for the concrete target account 3 the
per-account fan-out invocation succeeds with the marker value 1 even
under a storage layer whose snapshot acquisition (and every other
operation) fails — so it cannot have acquired any read-only snapshot,
nor walked that account's storage trie: the closure's body is commented
out in the source. -/
theorem fanout_no_snapshot_cex :
    failingProvider.provider_ro = Except.error 7 ∧
    (failingProvider.storagePrefetch 3).isOk = false ∧
    fanOut failingProvider [(3, [1])] = Except.ok [(3, 1)] :=
  ⟨rfl, rfl, rfl⟩

/-- Claim C4, amended: each per-account fan-out invocation performs no
database access at all — its result is independent of the storage
layer's behaviour — and simply records the marker value 1 for its
account. -/
theorem fanout_inert (p q : Provider) (targets : List (B256 × PrefixSet)) :
    fanOut p targets = fanOut q targets ∧
    fanOut p targets = Except.ok (targets.map (fun t => (t.1, 1))) :=
  ⟨rfl, rfl⟩

def storageFailProvider : Provider :=
  { provider_ro := Except.ok (), account_trie_cursor := Except.ok (),
    hashed_account_cursor := Except.ok (),
    nodes := [TrieElement.leaf 3 1], walkEnd := Except.ok (),
    storagePrefetch := fun _ => Except.error 9 }

/-- Claim C6, counterexample: with a storage layer whose single-account
storage prefetches all fail, the fan-out collection over two targets
still succeeds — no abort, no first-error — and a whole `prefetch_once`
run that performs such a (failing) storage prefetch still returns `ok`:
a storage failure inside the per-account work is never returned from
`prefetch_once`, because the fan-out tasks are infallible stubs. -/
theorem fanout_error_isolation_cex :
    storageFailProvider.storagePrefetch 3 = Except.error 9 ∧
    fanOut storageFailProvider [(3, [1]), (4, [2])] = Except.ok [(3, 1), (4, 1)] ∧
    (prefetchOnce storageFailProvider false HashedPostState.empty).isOk = true :=
  ⟨rfl, rfl, rfl⟩

/-- Claim C6, amended: the per-account fan-out tasks are infallible (the
fallible storage-root computation is commented out), so the en-bloc
collection never aborts; the errors `prefetch_once` does return — e.g.
failure to acquire the snapshot for the account-trie walk — reach only
the spawned worker, which logs them, and the dispatch loop keeps
accepting batches: accepting a batch never terminates the loop. -/
theorem fanout_infallible_loop_continues (p : Provider)
    (targets : List (B256 × PrefixSet)) (c : Bool) (hs : HashedPostState)
    (e : Nat) (s : RunState) (st : EvmState) :
    (fanOut p targets).isOk = true ∧
    (p.provider_ro = Except.error e →
      prefetchOnce p c hs = Except.error (TriePrefetchError.provider e)) ∧
    (runStep s (RunEvent.batch st)).terminated = s.terminated := by
  refine ⟨rfl, ?_, ?_⟩
  · intro h
    simp [prefetchOnce, fanOut, h]
  · by_cases ht : s.terminated = true <;> simp [runStep, ht]

/-- Witness for the amended C6 at concrete inputs. -/
theorem fanout_infallible_loop_continues_witness :
    (fanOut failingProvider [(3, [1])]).isOk = true ∧
    prefetchOnce failingProvider false HashedPostState.empty =
      Except.error (TriePrefetchError.provider 7) ∧
    (runStep initRunState (RunEvent.batch stC3)).terminated = false := by
  obtain ⟨h1, h2, h3⟩ :=
    fanout_infallible_loop_continues failingProvider [(3, [1])] false
      HashedPostState.empty 7 initRunState stC3
  exact ⟨h1, h2 rfl, h3⟩

def cancelProvider : Provider :=
  { provider_ro := Except.ok (), account_trie_cursor := Except.ok (),
    hashed_account_cursor := Except.ok (), nodes := [TrieElement.branch],
    walkEnd := Except.ok (), storagePrefetch := fun _ => Except.ok 0 }

/-- Claim C5, counterexample: with the cancellation signal already set
(`cancelled = true`), `prefetch_once` still runs its fan-out, acquires
its snapshot (the `snapshot` event is logged) and the walker still
consumes a step (the branch counter reaches 1): no signal is threaded
into `prefetch_once` in the source, so nothing is checked before the
fan-out, the snapshot acquisition, or each walk step. -/
theorem cancellation_ignored_cex :
    prefetchOnce cancelProvider true HashedPostState.empty =
      Except.ok { storage_roots := [], branches := 1, leaves := 0,
                  leavesMissed := 0, events := [Event.snapshot] } := by
  rfl

theorem runStep_terminated (s : RunState) (e : RunEvent)
    (h : s.terminated = true) : runStep s e = s := by
  simp [runStep, h]

theorem runLoop_terminated (events : List RunEvent) :
    ∀ s : RunState, s.terminated = true → runLoop s events = s := by
  induction events with
  | nil => intro s _; rfl
  | cons e rest ih =>
    intro s h
    show runLoop (runStep s e) rest = s
    rw [runStep_terminated s e h]
    exact ih s h

/-- Claim C5, amended: cancellation is forceful, not cooperative — the
result of `prefetch_once` is entirely independent of the signal state
(no checkpoint consults it), and on interrupt the `run` loop marks
itself terminated without spawning anything further (it aborts all
outstanding workers and returns), after which no event is processed. -/
theorem cancellation_forceful (p : Provider) (c1 c2 : Bool)
    (hs : HashedPostState) (s : RunState) (events : List RunEvent) :
    prefetchOnce p c1 hs = prefetchOnce p c2 hs ∧
    (runStep s RunEvent.interrupt).terminated = true ∧
    (runStep s RunEvent.interrupt).spawned = s.spawned ∧
    (s.terminated = true → runLoop s events = s) := by
  refine ⟨rfl, ?_, ?_, runLoop_terminated events s⟩
  · by_cases ht : s.terminated = true <;> simp [runStep, ht]
  · by_cases ht : s.terminated = true <;> simp [runStep, ht]

def terminatedRunState : RunState :=
  { tp := TriePrefetch.new, spawned := [], terminated := true }

/-- Witness for the amended C5 at concrete inputs. -/
theorem cancellation_forceful_witness :
    prefetchOnce cancelProvider true HashedPostState.empty =
      prefetchOnce cancelProvider false HashedPostState.empty ∧
    runLoop terminatedRunState [RunEvent.batch stC3] = terminatedRunState := by
  obtain ⟨h1, _, _, h4⟩ :=
    cancellation_forceful cancelProvider true false HashedPostState.empty
      terminatedRunState [RunEvent.batch stC3]
  exact ⟨h1, h4 rfl⟩

theorem fallbackAddrs_append_fallback (l : List Event) (a : B256) (b : Bool) :
    fallbackAddrs (l ++ [Event.fallback a b]) = fallbackAddrs l ++ [a] := by
  simp [fallbackAddrs]

theorem walk_storage_indep (p q : Provider) (nodes : List TrieElement) :
    ∀ s t : WalkState,
      t.storage_roots = s.storage_roots → t.branches = s.branches →
      t.leaves = s.leaves → t.leavesMissed = s.leavesMissed →
      fallbackAddrs t.events = fallbackAddrs s.events →
      (nodes.foldl (walkStep q) t).storage_roots =
        (nodes.foldl (walkStep p) s).storage_roots ∧
      (nodes.foldl (walkStep q) t).branches =
        (nodes.foldl (walkStep p) s).branches ∧
      (nodes.foldl (walkStep q) t).leaves =
        (nodes.foldl (walkStep p) s).leaves ∧
      (nodes.foldl (walkStep q) t).leavesMissed =
        (nodes.foldl (walkStep p) s).leavesMissed ∧
      fallbackAddrs (nodes.foldl (walkStep q) t).events =
        fallbackAddrs (nodes.foldl (walkStep p) s).events := by
  induction nodes with
  | nil => intro s t h1 h2 h3 h4 h5; exact ⟨h1, h2, h3, h4, h5⟩
  | cons n rest ih =>
    intro s t h1 h2 h3 h4 h5
    refine ih (walkStep p s n) (walkStep q t n) ?_ ?_ ?_ ?_ ?_ <;>
      cases n with
      | branch => simp [walkStep, h1, h2, h3, h4, h5]
      | leaf a v =>
        simp only [walkStep, h1]
        cases hr : lookupRemove s.storage_roots a <;>
          simp [hr, h1, h2, h3, h4, h5, fallbackAddrs_append_fallback]

/-- Claim C7: errors of the fallback single-account prefetch are
swallowed (`.prefetch().ok().unwrap_or_default()`) — replacing the
storage-prefetch behaviour, e.g. by an always-failing one, never
changes whether `prefetch_once` succeeds, nor any counter, nor the
consumed `storage_roots` map, nor which fallback calls are made; a
fallback failure never makes `prefetch_once` return an error and never
terminates the walk. -/
theorem fallback_errors_swallowed (p : Provider)
    (sp : B256 → Except Nat Nat) (c : Bool) (hs : HashedPostState) :
    ((prefetchOnce { p with storagePrefetch := sp } c hs).isOk =
      (prefetchOnce p c hs).isOk) ∧
    (∀ w w', prefetchOnce p c hs = Except.ok w →
      prefetchOnce { p with storagePrefetch := sp } c hs = Except.ok w' →
      w'.storage_roots = w.storage_roots ∧ w'.branches = w.branches ∧
      w'.leaves = w.leaves ∧ w'.leavesMissed = w.leavesMissed ∧
      fallbackAddrs w'.events = fallbackAddrs w.events) := by
  simp only [prefetchOnce, fanOut]
  cases hro : p.provider_ro with
  | error e => simp [hro]
  | ok u =>
    cases hat : p.account_trie_cursor with
    | error e => simp [hro, hat]
    | ok u2 =>
      cases hhc : p.hashed_account_cursor with
      | error e => simp [hro, hat, hhc]
      | ok u3 =>
        cases hwe : p.walkEnd with
        | error e => simp [hro, hat, hhc, hwe]
        | ok u4 =>
          simp only [hro, hat, hhc, hwe]
          constructor
          · rfl
          · intro w w' hw hw'
            have hWeq := Except.ok.inj hw
            have hWeq' := Except.ok.inj hw'
            obtain ⟨g1, g2, g3, g4, g5⟩ :=
              walk_storage_indep p { p with storagePrefetch := sp } p.nodes
                _ _ rfl rfl rfl rfl rfl
            rw [← hWeq, ← hWeq']
            exact ⟨g1, g2, g3, g4, g5⟩

def okStorageProvider : Provider :=
  { provider_ro := Except.ok (), account_trie_cursor := Except.ok (),
    hashed_account_cursor := Except.ok (),
    nodes := [TrieElement.leaf 3 1, TrieElement.branch],
    walkEnd := Except.ok (), storagePrefetch := fun _ => Except.ok 0 }

def wViaOk : WalkState :=
  { storage_roots := [], branches := 1, leaves := 1, leavesMissed := 1,
    events := [Event.snapshot, Event.fallback 3 true] }

def wViaFail : WalkState :=
  { storage_roots := [], branches := 1, leaves := 1, leavesMissed := 1,
    events := [Event.snapshot, Event.fallback 3 false] }

/-- Witness for C7 at a concrete input with one missed leaf, comparing a
succeeding storage layer with an always-failing replacement. -/
theorem fallback_errors_swallowed_witness :
    (prefetchOnce { okStorageProvider with storagePrefetch := fun _ => Except.error 5 }
        false HashedPostState.empty).isOk =
      (prefetchOnce okStorageProvider false HashedPostState.empty).isOk ∧
    (wViaFail.storage_roots = wViaOk.storage_roots ∧
      wViaFail.branches = wViaOk.branches ∧ wViaFail.leaves = wViaOk.leaves ∧
      wViaFail.leavesMissed = wViaOk.leavesMissed ∧
      fallbackAddrs wViaFail.events = fallbackAddrs wViaOk.events) := by
  obtain ⟨h1, h2⟩ := fallback_errors_swallowed okStorageProvider
    (fun _ => Except.error 5) false HashedPostState.empty
  exact ⟨h1, h2 wViaOk wViaFail rfl rfl⟩

theorem execJob_le (p : Provider) (g : GlobalStats) (j : HashedPostState) :
    g.branch_prefetched ≤ (execJob p g j).branch_prefetched ∧
    g.leaves_prefetched ≤ (execJob p g j).leaves_prefetched ∧
    g.missed_leaves_prefetched ≤ (execJob p g j).missed_leaves_prefetched := by
  unfold execJob
  cases prefetchOnce p false j with
  | error e => exact ⟨le_refl _, le_refl _, le_refl _⟩
  | ok w => exact ⟨Nat.le_add_right _ _, Nat.le_add_right _ _, Nat.le_add_right _ _⟩

/-- Claim C9: every `GlobalStats` counter is monotonically
non-decreasing — each worker's update under the lock only adds the
(non-negative) per-walk amounts, a failed worker adds nothing, and over
any sequence of worker completions no counter ever decreases or is
reset. -/
theorem global_stats_monotone (p : Provider) (g : GlobalStats)
    (jobs : List HashedPostState) :
    g.branch_prefetched ≤ (jobs.foldl (execJob p) g).branch_prefetched ∧
    g.leaves_prefetched ≤ (jobs.foldl (execJob p) g).leaves_prefetched ∧
    g.missed_leaves_prefetched ≤
      (jobs.foldl (execJob p) g).missed_leaves_prefetched := by
  induction jobs generalizing g with
  | nil => exact ⟨le_refl _, le_refl _, le_refl _⟩
  | cons j rest ih =>
    obtain ⟨h1, h2, h3⟩ := ih (execJob p g j)
    obtain ⟨g1, g2, g3⟩ := execJob_le p g j
    exact ⟨g1.trans h1, g2.trans h2, g3.trans h3⟩

theorem walkStep_missed_le (p : Provider) (s : WalkState) (n : TrieElement)
    (h : s.leavesMissed ≤ s.leaves) :
    (walkStep p s n).leavesMissed ≤ (walkStep p s n).leaves := by
  cases n with
  | branch => simpa [walkStep] using h
  | leaf a v =>
    simp only [walkStep]
    cases hr : lookupRemove s.storage_roots a with
    | some r => simpa [hr] using Nat.le_succ_of_le h
    | none => simpa [hr] using Nat.succ_le_succ h

theorem walk_missed_le (p : Provider) (nodes : List TrieElement) :
    ∀ s : WalkState, s.leavesMissed ≤ s.leaves →
      (nodes.foldl (walkStep p) s).leavesMissed ≤
        (nodes.foldl (walkStep p) s).leaves := by
  induction nodes with
  | nil => intro s h; exact h
  | cons n rest ih =>
    intro s h
    exact ih (walkStep p s n) (walkStep_missed_le p s n h)

/-- Claim C10: every `prefetch_once` execution that reaches the stats
merge has `leaves_missed` at most the tracker's leaves count — the
walker bumps the leaf counter for every yielded leaf, missed ones
included — so the unsigned subtraction `stats.leaves_added() -
leaves_missed` is exact and never underflows. -/
theorem leaves_missed_le_leaves (p : Provider) (c : Bool)
    (hs : HashedPostState) (w : WalkState)
    (h : prefetchOnce p c hs = Except.ok w) :
    w.leavesMissed ≤ w.leaves ∧
    (w.leaves - w.leavesMissed) + w.leavesMissed = w.leaves := by
  simp only [prefetchOnce, fanOut] at h
  cases hro : p.provider_ro with
  | error e => simp [hro] at h
  | ok u =>
    cases hat : p.account_trie_cursor with
    | error e => simp [hro, hat] at h
    | ok u2 =>
      cases hhc : p.hashed_account_cursor with
      | error e => simp [hro, hat, hhc] at h
      | ok u3 =>
        cases hwe : p.walkEnd with
        | error e => simp [hro, hat, hhc, hwe] at h
        | ok u4 =>
          simp only [hro, hat, hhc, hwe, Except.ok.injEq] at h
          have hle := walk_missed_le p p.nodes
            { storage_roots :=
                ((storageRootTargets (keysOf hs.accounts)
                  (constructPrefixSets hs).storage_prefix_sets).map
                    (fun t => (t.1, 1))),
              branches := 0, leaves := 0, leavesMissed := 0,
              events := [Event.snapshot] } (Nat.le_refl 0)
          rw [h] at hle
          exact ⟨hle, Nat.sub_add_cancel hle⟩

def missProvider : Provider :=
  { provider_ro := Except.ok (), account_trie_cursor := Except.ok (),
    hashed_account_cursor := Except.ok (),
    nodes := [TrieElement.leaf 3 1, TrieElement.branch],
    walkEnd := Except.ok (), storagePrefetch := fun _ => Except.error 9 }

def wC10 : WalkState :=
  { storage_roots := [], branches := 1, leaves := 1, leavesMissed := 1,
    events := [Event.snapshot, Event.fallback 3 false] }

/-- Witness for C10 at a concrete run with one missed leaf. -/
theorem leaves_missed_le_leaves_witness :
    wC10.leavesMissed ≤ wC10.leaves ∧
    (wC10.leaves - wC10.leavesMissed) + wC10.leavesMissed = wC10.leaves :=
  leaves_missed_le_leaves missProvider false HashedPostState.empty wC10 rfl

theorem countJobsWith_append_one (a : B256) (x : List HashedPostState)
    (j : HashedPostState) :
    countJobsWith a (x ++ [j]) =
      countJobsWith a x + (if a ∈ keysOf j.accounts then 1 else 0) := by
  unfold countJobsWith
  rw [List.countP_append]
  by_cases hj : a ∈ keysOf j.accounts <;> simp [hj, List.countP_cons]

theorem runLoop_count_le (events : List RunEvent) :
    ∀ (s : RunState) (a : B256),
      countJobsWith a (runLoop s events).spawned ≤
        countJobsWith a s.spawned +
          (if a ∈ s.tp.cached_accounts then 0 else 1) := by
  induction events with
  | nil =>
    intro s a
    exact Nat.le_add_right _ _
  | cons e rest ih =>
    intro s a
    show countJobsWith a (runLoop (runStep s e) rest).spawned ≤ _
    by_cases ht : s.terminated = true
    · rw [runStep_terminated s e ht]
      exact ih s a
    · cases e with
      | interrupt =>
        have hstep : runStep s RunEvent.interrupt = { s with terminated := true } := by
          simp [runStep, ht]
        rw [hstep]
        exact ih { s with terminated := true } a
      | batch st =>
        have hstep : runStep s (RunEvent.batch st) =
            { s with tp := (deduplicate_and_update_cached s.tp st).1,
                     spawned := s.spawned ++
                       [(deduplicate_and_update_cached s.tp st).2] } := by
          simp [runStep, ht]
        rw [hstep]
        have h2 := ih { s with tp := (deduplicate_and_update_cached s.tp st).1,
                               spawned := s.spawned ++
                                 [(deduplicate_and_update_cached s.tp st).2] } a
        rw [countJobsWith_append_one] at h2
        by_cases hc : a ∈ s.tp.cached_accounts
        · have hnot : a ∉ keysOf (deduplicate_and_update_cached s.tp st).2.accounts :=
            fun hmem => ((dedup_out_iff s.tp st a).1 hmem).2 hc
          have hcached : a ∈ (deduplicate_and_update_cached s.tp st).1.cached_accounts :=
            (dedup_cached_iff s.tp st a).2 (Or.inl hc)
          simp [hnot, hcached, hc] at h2 ⊢
          omega
        · by_cases ho : a ∈ keysOf (deduplicate_and_update_cached s.tp st).2.accounts
          · have hcached : a ∈ (deduplicate_and_update_cached s.tp st).1.cached_accounts :=
              (dedup_cached_iff s.tp st a).2
                (Or.inr ((dedup_out_iff s.tp st a).1 ho).1)
            simp [ho, hcached, hc] at h2 ⊢
            omega
          · have hb : (if a ∈ (deduplicate_and_update_cached s.tp st).1.cached_accounts
                then (0 : Nat) else 1) ≤ 1 := by
              split <;> omega
            simp [ho, hc] at h2 ⊢
            omega

/-- Claim C8: for every batch the dedup filter runs to completion on the
coordinator's own path — its cache update and its output are produced by
the same synchronous `deduplicate_and_update_cached` call, and only then
is the worker for the filtered output recorded as spawned; no other
operation mutates the cache (workers receive only the filtered state).
Consequently any account address occurs in at most one spawned worker's
input over the whole run. -/
theorem dedup_before_spawn_at_most_once (events : List RunEvent)
    (a : B256) (s : RunState) (st : EvmState) :
    (runStep s (RunEvent.batch st) =
      if s.terminated = true then s
      else { tp := (deduplicate_and_update_cached s.tp st).1,
             spawned := s.spawned ++ [(deduplicate_and_update_cached s.tp st).2],
             terminated := s.terminated }) ∧
    countJobsWith a (runLoop initRunState events).spawned ≤ 1 := by
  constructor
  · by_cases ht : s.terminated = true <;> simp [runStep, ht]
  · have h := runLoop_count_le events initRunState a
    simpa [initRunState, TriePrefetch.new, countJobsWith] using h
